import Mathlib

/-!
# Verification of the chore-tracker web application

A shallow embedding of `app.py` and `models.py` of the chore-tracker
repository.  The database (three tables backed by SQLite) is modelled as
lists of records together with the autoincrement counters of the three
primary-key columns; the Flask session is an `Option Nat` holding the
`user_id` marker; submitted form data is a list of key/value pairs and
`request.form.get` is first-match lookup.  Every route handler becomes a
pure function from (database, session, method, form data) to
(database, session, response).

Two pieces of behaviour are delegated by the source to external libraries
and are therefore parameters of the model rather than definitions:
the werkzeug password functions `generate_password_hash` /
`check_password_hash` (parameters `hash` and `check`) and the Python
builtin `float` used by `add_chore` (parameter `parse`, returning `none`
exactly when `float(value)` raises `ValueError`).  Because no route ever
computes with a stored chore value, the type of chore values is a type
parameter `V` throughout.
-/

namespace ChoreApp

/-- `models.py`, class `User`: `id` primary key, unique `username`,
`password_hash`. -/
structure User where
  id : Nat
  username : String
  password_hash : String
deriving Repr, DecidableEq

/-- `models.py`, class `Chore`: `id` primary key, `name`, numeric `value`.
The value column is `db.Float`; since no handler ever inspects a stored
value, it is modelled by an arbitrary type `V`. -/
structure Chore (V : Type) where
  id : Nat
  name : String
  value : V
deriving Repr, DecidableEq

/-- `models.py`, class `UserChoreStatus`: `id` primary key, foreign keys
`user_id` and `chore_id`, a `date` (modelled as `Nat`) and the three
boolean flags. -/
structure UserChoreStatus where
  id : Nat
  user_id : Nat
  chore_id : Nat
  date : Nat
  prepared : Bool
  verified : Bool
  completed : Bool
deriving Repr, DecidableEq

/-- The whole SQLite database: the three tables plus the autoincrement
counter of each integer primary key (SQLite hands out ids starting at 1). -/
structure DB (V : Type) where
  users : List User
  chores : List (Chore V)
  statuses : List UserChoreStatus
  nextUserId : Nat
  nextChoreId : Nat
  nextStatusId : Nat
deriving Repr, DecidableEq

/-- The empty database produced by `db.create_all()` on a fresh file. -/
def emptyDB (V : Type) : DB V :=
  { users := [], chores := [], statuses := []
    nextUserId := 1, nextChoreId := 1, nextStatusId := 1 }

/-- HTTP method of a request. -/
inductive Method where
  | get
  | post
deriving Repr, DecidableEq

/-- The endpoints that `url_for` is called with in `app.py`. -/
inductive Endpoint where
  | register
  | login
  | dashboard
  | addChore
deriving Repr, DecidableEq

/-- A response of a route handler: a redirect (with the flash message
attached on the way out, when there is one), a rendered template with the
data passed to it, werkzeug 404, or the 500 page produced by an uncaught
exception. -/
inductive Response (V : Type) where
  | redirect (target : Endpoint) (flash : Option String)
  | renderRegister
  | renderLogin
  | renderDashboard (user : User) (chores : List (Chore V))
      (statuses : List (Nat × UserChoreStatus)) (today : Nat)
  | renderAddChore (chores : List (Chore V))
  | notFound
  | serverError
deriving Repr, DecidableEq

/-- Submitted form data: `request.form` as a key/value list. -/
abbrev Form : Type := List (String × String)

/-- `request.form.get(key, dflt)`: value of the first pair with the given
key, or the default. -/
def formGet (form : Form) (key dflt : String) : String :=
  match List.find? (fun kv => kv.1 == key) form with
  | some kv => kv.2
  | none => dflt

/-- `bool(request.form.get(pre + str(cid)))`: the checkbox field is present
and its value is a nonempty string (`bool(None)` and `bool("")` are both
`False` in Python). -/
def hasBox (form : Form) (pre : String) (cid : Nat) : Bool :=
  match List.find? (fun kv => kv.1 == pre ++ toString cid) form with
  | some kv => kv.2 != ""
  | none => false

/-- Python `str.strip()`: drop whitespace from both ends of the string.
(Structural recursion over the character list, so that concrete values
reduce inside the kernel.) -/
def strip (s : String) : String :=
  ⟨((s.data.dropWhile Char.isWhitespace).reverse.dropWhile
    Char.isWhitespace).reverse⟩

/-- The checkbox field is present in the form data (with any value).
Browsers submit a checked checkbox as `name=on`, so for submitted form
data presence coincides with `hasBox`; the two differ only on a field
carrying an empty value, which Python `bool()` treats as absent. -/
def keyPresent (form : Form) (key : String) : Bool :=
  (List.find? (fun kv => kv.1 == key) form).isSome

/-- The key filter of
`UserChoreStatus.query.filter_by(user_id=uid, chore_id=cid, date=d)`. -/
def statusKeyMatch (s : UserChoreStatus) (uid cid d : Nat) : Bool :=
  s.user_id == uid && s.chore_id == cid && s.date == d

/-- `.filter_by(user_id=uid, chore_id=cid, date=d).first()`. -/
def findStatus (l : List UserChoreStatus) (uid cid d : Nat) :
    Option UserChoreStatus :=
  List.find? (fun s => statusKeyMatch s uid cid d) l

/-- Number of status rows with the given (user, chore, date) key. -/
def countKey (l : List UserChoreStatus) (uid cid d : Nat) : Nat :=
  (l.filter (fun s => statusKeyMatch s uid cid d)).length

/-- The three assignments `status.prepared = ...`, `status.verified = ...`,
`status.completed = ...` on an existing row. -/
def setFlags (s : UserChoreStatus) (p v c : Bool) : UserChoreStatus :=
  { s with prepared := p, verified := v, completed := c }

/-- Mutating the row returned by `.first()` in place: update the first row
matching the key, leave everything else untouched. -/
def updateFirstStatus (l : List UserChoreStatus) (uid cid d : Nat)
    (p v c : Bool) : List UserChoreStatus :=
  match l with
  | [] => []
  | s :: rest =>
    if statusKeyMatch s uid cid d then setFlags s p v c :: rest
    else s :: updateFirstStatus rest uid cid d p v c

/-- One iteration of the `for chore in Chore.query.all()` loop of the
dashboard POST handler (`app.py` lines 130-150): read the three checkbox
flags for this chore, then either mutate the existing row for
(user, chore, today) or add a fresh row carrying the next status id. -/
def dashStep {V : Type} (form : Form) (uid today : Nat)
    (acc : List UserChoreStatus × Nat) (ch : Chore V) :
    List UserChoreStatus × Nat :=
  let p := hasBox form "prepared_" ch.id
  let v := hasBox form "verified_" ch.id
  let c := hasBox form "completed_" ch.id
  match findStatus acc.1 uid ch.id today with
  | some _ => (updateFirstStatus acc.1 uid ch.id today p v c, acc.2)
  | none => (acc.1 ++ [⟨acc.2, uid, ch.id, today, p, v, c⟩], acc.2 + 1)

/-- `app.py` `register` (lines 74-95).  `hash` stands for werkzeug
`generate_password_hash`.  Returns the new database, the session and the
response. -/
def register {V : Type} (hash : String → String) (db : DB V)
    (sess : Option Nat) (mth : Method) (form : Form) :
    DB V × Option Nat × Response V :=
  match mth with
  | .post =>
    let username := strip (formGet form "username" "")
    let password := formGet form "password" ""
    if username = "" ∨ password = "" then
      (db, sess, .redirect .register
        (some "Both username and password are required."))
    else
      match List.find? (fun u => u.username == username) db.users with
      | some _ =>
        (db, sess, .redirect .register (some "Username is already taken."))
      | none =>
        ({ db with
            users := db.users ++ [⟨db.nextUserId, username, hash password⟩]
            nextUserId := db.nextUserId + 1 },
         sess,
         .redirect .login (some "Registration successful. Please log in."))
  | .get => (db, sess, .renderRegister)

/-- `app.py` `login` (lines 97-110).  `check` stands for werkzeug
`check_password_hash`; the source condition
`if user and check_password_hash(user.password_hash, password)` becomes a
match on the first user with the stripped username followed by the hash
check. -/
def login {V : Type} (check : String → String → Bool) (db : DB V)
    (sess : Option Nat) (mth : Method) (form : Form) :
    DB V × Option Nat × Response V :=
  match mth with
  | .post =>
    let username := strip (formGet form "username" "")
    let password := formGet form "password" ""
    match List.find? (fun u => u.username == username) db.users with
    | some u =>
      if check u.password_hash password then
        (db, some u.id, .redirect .dashboard (some "Logged in successfully."))
      else
        (db, sess, .redirect .login (some "Invalid username or password."))
    | none =>
      (db, sess, .redirect .login (some "Invalid username or password."))
  | .get => (db, sess, .renderLogin)

/-- `app.py` `logout` (lines 112-117): `session.clear()` then redirect. -/
def logout {V : Type} (db : DB V) (_sess : Option Nat) :
    DB V × Option Nat × Response V :=
  (db, none, .redirect .login (some "You have been logged out."))

/-- The transient `UserChoreStatus(user_id=uid, chore_id=cid, date=today)`
object built for rendering on the dashboard GET path; it is never added to
the session, so it has no database id (modelled as 0) and carries the
column defaults for the three flags. -/
def synthStatus (uid cid today : Nat) : UserChoreStatus :=
  ⟨0, uid, cid, today, false, false, false⟩

/-- `app.py` `dashboard` (lines 119-173), `login_required` included: with
no `user_id` in the session, redirect to the login page before any
database access.  The source then evaluates `user.id` (POST, inside the
loop) or renders with `user` (GET); when the session id matches no user
row this raises and Flask answers 500, modelled by the `serverError`
response with the database untouched.  On POST the chore loop upserts one
status row per chore; on GET a statuses dict keyed by chore id is built,
synthesizing (without persisting) a row where none exists. -/
def dashboard {V : Type} (db : DB V) (sess : Option Nat) (mth : Method)
    (form : Form) (today : Nat) : DB V × Option Nat × Response V :=
  match sess with
  | none => (db, none, .redirect .login none)
  | some uid =>
    match List.find? (fun u => u.id == uid) db.users with
    | none => (db, sess, .serverError)
    | some user =>
      match mth with
      | .post =>
        let r := db.chores.foldl (dashStep form user.id today)
          (db.statuses, db.nextStatusId)
        ({ db with statuses := r.1, nextStatusId := r.2 },
         sess, .redirect .dashboard (some "Chore statuses updated."))
      | .get =>
        (db, sess,
         .renderDashboard user db.chores
           (db.chores.map (fun c =>
             (c.id, (findStatus db.statuses user.id c.id today).getD
               (synthStatus user.id c.id today))))
           today)

/-- `app.py` `add_chore` (lines 175-196), `login_required` included.
`parse` stands for Python `float` on the stripped value string, `none`
when it raises `ValueError`.  The value is parsed before the name is
checked, exactly as in the source. -/
def add_chore {V : Type} (parse : String → Option V) (db : DB V)
    (sess : Option Nat) (mth : Method) (form : Form) :
    DB V × Option Nat × Response V :=
  match sess with
  | none => (db, none, .redirect .login none)
  | some _ =>
    match mth with
    | .post =>
      let name := strip (formGet form "name" "")
      let value := strip (formGet form "value" "")
      match parse value with
      | none =>
        (db, sess, .redirect .addChore
          (some "Please enter a valid value for the chore."))
      | some v =>
        if name = "" then
          (db, sess, .redirect .addChore (some "Chore name is required."))
        else
          ({ db with
              chores := db.chores ++ [⟨db.nextChoreId, name, v⟩]
              nextChoreId := db.nextChoreId + 1 },
           sess, .redirect .addChore (some "Chore added successfully."))
    | .get => (db, sess, .renderAddChore db.chores)

/-- Removing the single object returned by `Chore.query.get(cid)` from the
chores table: the id column is the primary key, so at most one row
matches; the model removes the first one. -/
def removeFirstChore {V : Type} (l : List (Chore V)) (cid : Nat) :
    List (Chore V) :=
  match l with
  | [] => []
  | c :: rest => if c.id == cid then rest else c :: removeFirstChore rest cid

/-- `app.py` `delete_chore` (lines 198-206), `login_required` included:
`get_or_404` answers 404 when no chore has the given id; otherwise the
chore is deleted and the `cascade="all, delete-orphan"` relationship of
`models.py` deletes every status row whose `chore_id` references it. -/
def delete_chore {V : Type} (db : DB V) (sess : Option Nat) (cid : Nat) :
    DB V × Option Nat × Response V :=
  match sess with
  | none => (db, none, .redirect .login none)
  | some _ =>
    match List.find? (fun c => c.id == cid) db.chores with
    | none => (db, sess, .notFound)
    | some ch =>
      ({ db with
          chores := removeFirstChore db.chores cid
          statuses := db.statuses.filter (fun s => s.chore_id != cid) },
       sess, .redirect .addChore (some ("Deleted chore " ++ ch.name ++ ".")))

/-- The database states reachable from the empty database by the
application operations, with arbitrary sessions, methods, form data,
dates and library functions at each step. -/
inductive Reachable {V : Type} : DB V → Prop where
  | init : Reachable (emptyDB V)
  | register (hash sess mth form) {db : DB V} : Reachable db →
      Reachable (ChoreApp.register hash db sess mth form).1
  | login (check sess mth form) {db : DB V} : Reachable db →
      Reachable (ChoreApp.login check db sess mth form).1
  | logout (sess) {db : DB V} : Reachable db →
      Reachable (ChoreApp.logout db sess).1
  | dashboard (sess mth form today) {db : DB V} : Reachable db →
      Reachable (ChoreApp.dashboard db sess mth form today).1
  | add_chore (parse sess mth form) {db : DB V} : Reachable db →
      Reachable (ChoreApp.add_chore parse db sess mth form).1
  | delete_chore (sess cid) {db : DB V} : Reachable db →
      Reachable (ChoreApp.delete_chore db sess cid).1

/-- At most one status row per (user, chore, date) key. -/
def StatusKeyUnique (l : List UserChoreStatus) : Prop :=
  ∀ uid cid d : Nat, countKey l uid cid d ≤ 1

/-! ### Basic facts about the status-row helpers -/

theorem statusKeyMatch_iff {s : UserChoreStatus} {uid cid d : Nat} :
    statusKeyMatch s uid cid d = true ↔
      s.user_id = uid ∧ s.chore_id = cid ∧ s.date = d := by
  simp [statusKeyMatch, Bool.and_eq_true, and_assoc]

theorem statusKeyMatch_setFlags (s : UserChoreStatus) (uid cid d : Nat)
    (p v c : Bool) :
    statusKeyMatch (setFlags s p v c) uid cid d = statusKeyMatch s uid cid d :=
  rfl

theorem findStatus_eq_none_iff {l : List UserChoreStatus} {uid cid d : Nat} :
    findStatus l uid cid d = none ↔ countKey l uid cid d = 0 := by
  simp [findStatus, countKey, List.find?_eq_none, List.length_eq_zero,
    List.filter_eq_nil_iff]

theorem findStatus_append (l m : List UserChoreStatus) (uid cid d : Nat) :
    findStatus (l ++ m) uid cid d =
      (findStatus l uid cid d).or (findStatus m uid cid d) := by
  simp [findStatus, List.find?_append]

theorem countKey_append (l m : List UserChoreStatus) (uid cid d : Nat) :
    countKey (l ++ m) uid cid d = countKey l uid cid d + countKey m uid cid d := by
  simp [countKey, List.filter_append]

theorem countKey_cons (s : UserChoreStatus) (rest : List UserChoreStatus)
    (uid cid d : Nat) :
    countKey (s :: rest) uid cid d =
      (if statusKeyMatch s uid cid d then 1 else 0) + countKey rest uid cid d := by
  by_cases h : statusKeyMatch s uid cid d <;>
    simp [countKey, List.filter_cons, h, Nat.add_comm]

theorem countKey_filter_le (l : List UserChoreStatus)
    (p : UserChoreStatus → Bool) (uid cid d : Nat) :
    countKey (l.filter p) uid cid d ≤ countKey l uid cid d := by
  exact List.Sublist.length_le ((List.filter_sublist l).filter _)

theorem countKey_updateFirstStatus (l : List UserChoreStatus) (u c d : Nat)
    (p v cc : Bool) (u' c' d' : Nat) :
    countKey (updateFirstStatus l u c d p v cc) u' c' d' =
      countKey l u' c' d' := by
  induction l with
  | nil => rfl
  | cons s rest ih =>
    by_cases h : statusKeyMatch s u c d
    · simp only [updateFirstStatus, if_pos h, countKey_cons,
        statusKeyMatch_setFlags]
    · simp only [updateFirstStatus, if_neg h, countKey_cons, ih]

theorem findStatus_updateFirstStatus_self (l : List UserChoreStatus)
    (u c d : Nat) (p v cc : Bool) :
    findStatus (updateFirstStatus l u c d p v cc) u c d =
      (findStatus l u c d).map (fun s => setFlags s p v cc) := by
  induction l with
  | nil => rfl
  | cons s rest ih =>
    by_cases h : statusKeyMatch s u c d
    · simp [updateFirstStatus, if_pos h, findStatus, List.find?_cons,
        statusKeyMatch_setFlags, h]
    · simp only [updateFirstStatus, if_neg h]
      simp only [findStatus, List.find?_cons] at ih ⊢
      simp [h, ih]

theorem findStatus_updateFirstStatus_of_ne (l : List UserChoreStatus)
    (u c d : Nat) (p v cc : Bool) (u' c' d' : Nat)
    (hne : ¬(u' = u ∧ c' = c ∧ d' = d)) :
    findStatus (updateFirstStatus l u c d p v cc) u' c' d' =
      findStatus l u' c' d' := by
  induction l with
  | nil => rfl
  | cons s rest ih =>
    by_cases h : statusKeyMatch s u c d
    · have hk := statusKeyMatch_iff.mp h
      have h2 : statusKeyMatch s u' c' d' = false := by
        rcases Bool.eq_false_or_eq_true (statusKeyMatch s u' c' d') with h2 | h2
        · have hk' := statusKeyMatch_iff.mp h2
          exact absurd ⟨by omega, by omega, by omega⟩ hne
        · exact h2
      have h2' : statusKeyMatch (setFlags s p v cc) u' c' d' = false := h2
      simp only [updateFirstStatus, if_pos h]
      simp [findStatus, List.find?_cons, h2, h2']
    · simp only [updateFirstStatus, if_neg h]
      by_cases h' : statusKeyMatch s u' c' d'
      · simp [findStatus, List.find?_cons, h']
      · simp only [findStatus, List.find?_cons] at ih ⊢
        simp [h', ih]

theorem findStatus_some_key {l : List UserChoreStatus} {uid cid d : Nat}
    {s : UserChoreStatus} (h : findStatus l uid cid d = some s) :
    s.user_id = uid ∧ s.chore_id = cid ∧ s.date = d := by
  simp only [findStatus] at h
  have hp := List.find?_some h
  exact statusKeyMatch_iff.mp hp

theorem findStatus_some_mem {l : List UserChoreStatus} {uid cid d : Nat}
    {s : UserChoreStatus} (h : findStatus l uid cid d = some s) : s ∈ l := by
  simp only [findStatus] at h
  exact List.mem_of_find?_eq_some h

theorem statusKeyMatch_mk_false (i u c d : Nat) (p v cc : Bool)
    (u' c' d' : Nat) (hne : ¬(u' = u ∧ c' = c ∧ d' = d)) :
    statusKeyMatch ⟨i, u, c, d, p, v, cc⟩ u' c' d' = false := by
  rcases Bool.eq_false_or_eq_true
      (statusKeyMatch ⟨i, u, c, d, p, v, cc⟩ u' c' d') with h2 | h2
  · have hk' := statusKeyMatch_iff.mp h2
    exact absurd ⟨hk'.1.symm, hk'.2.1.symm, hk'.2.2.symm⟩ hne
  · exact h2

/-! ### The dashboard POST loop body -/

theorem dashStep_eq {V : Type} (form : Form) (uid today : Nat)
    (acc : List UserChoreStatus × Nat) (ch : Chore V) :
    dashStep form uid today acc ch =
      match findStatus acc.1 uid ch.id today with
      | some _ =>
        (updateFirstStatus acc.1 uid ch.id today
          (hasBox form "prepared_" ch.id) (hasBox form "verified_" ch.id)
          (hasBox form "completed_" ch.id), acc.2)
      | none =>
        (acc.1 ++ [⟨acc.2, uid, ch.id, today,
          hasBox form "prepared_" ch.id, hasBox form "verified_" ch.id,
          hasBox form "completed_" ch.id⟩], acc.2 + 1) :=
  rfl

theorem findStatus_dashStep_self {V : Type} (form : Form) (uid today : Nat)
    (acc : List UserChoreStatus × Nat) (ch : Chore V) :
    ∃ s, findStatus (dashStep form uid today acc ch).1 uid ch.id today = some s ∧
      s.user_id = uid ∧ s.chore_id = ch.id ∧ s.date = today ∧
      s.prepared = hasBox form "prepared_" ch.id ∧
      s.verified = hasBox form "verified_" ch.id ∧
      s.completed = hasBox form "completed_" ch.id ∧
      ∀ s0, findStatus acc.1 uid ch.id today = some s0 → s.id = s0.id := by
  rcases hf : findStatus acc.1 uid ch.id today with _ | s0
  · refine ⟨⟨acc.2, uid, ch.id, today, hasBox form "prepared_" ch.id,
      hasBox form "verified_" ch.id, hasBox form "completed_" ch.id⟩,
      ?_, rfl, rfl, rfl, rfl, rfl, rfl, ?_⟩
    · rw [dashStep_eq, hf]
      simp only [findStatus_append, hf, Option.none_or]
      simp [findStatus, List.find?_cons, statusKeyMatch]
    · intro s0 h
      cases h
  · have hk := findStatus_some_key hf
    refine ⟨setFlags s0 (hasBox form "prepared_" ch.id)
      (hasBox form "verified_" ch.id) (hasBox form "completed_" ch.id),
      ?_, hk.1, hk.2.1, hk.2.2, rfl, rfl, rfl, ?_⟩
    · rw [dashStep_eq, hf]
      simp only [findStatus_updateFirstStatus_self, hf]
      rfl
    · intro s1 h
      cases h
      rfl

theorem findStatus_dashStep_of_ne {V : Type} (form : Form) (uid today : Nat)
    (acc : List UserChoreStatus × Nat) (ch : Chore V) (u' c' d' : Nat)
    (hne : ¬(u' = uid ∧ c' = ch.id ∧ d' = today)) :
    findStatus (dashStep form uid today acc ch).1 u' c' d' =
      findStatus acc.1 u' c' d' := by
  rcases hf : findStatus acc.1 uid ch.id today with _ | s0
  · rw [dashStep_eq, hf]
    simp only [findStatus_append]
    have hnew : findStatus [⟨acc.2, uid, ch.id, today,
        hasBox form "prepared_" ch.id, hasBox form "verified_" ch.id,
        hasBox form "completed_" ch.id⟩] u' c' d' = none := by
      simp only [findStatus, List.find?_cons, List.find?_nil]
      simp [statusKeyMatch_mk_false _ _ _ _ _ _ _ _ _ _ hne]
    rw [hnew, Option.or_none]
  · rw [dashStep_eq, hf]
    exact findStatus_updateFirstStatus_of_ne _ _ _ _ _ _ _ _ _ _ hne

theorem countKey_dashStep_self {V : Type} (form : Form) (uid today : Nat)
    (acc : List UserChoreStatus × Nat) (ch : Chore V) :
    countKey (dashStep form uid today acc ch).1 uid ch.id today =
      if countKey acc.1 uid ch.id today = 0 then 1
      else countKey acc.1 uid ch.id today := by
  rcases hf : findStatus acc.1 uid ch.id today with _ | s0
  · have h0 : countKey acc.1 uid ch.id today = 0 := findStatus_eq_none_iff.mp hf
    rw [dashStep_eq, hf]
    simp only [countKey_append, h0, if_pos rfl, Nat.zero_add]
    simp [countKey, List.filter_cons, statusKeyMatch]
  · have h0 : countKey acc.1 uid ch.id today ≠ 0 := by
      intro h
      rw [← findStatus_eq_none_iff] at h
      rw [hf] at h
      cases h
    rw [dashStep_eq, hf]
    simp only [countKey_updateFirstStatus, if_neg h0]

theorem countKey_dashStep_of_ne {V : Type} (form : Form) (uid today : Nat)
    (acc : List UserChoreStatus × Nat) (ch : Chore V) (u' c' d' : Nat)
    (hne : ¬(u' = uid ∧ c' = ch.id ∧ d' = today)) :
    countKey (dashStep form uid today acc ch).1 u' c' d' =
      countKey acc.1 u' c' d' := by
  rcases hf : findStatus acc.1 uid ch.id today with _ | s0
  · rw [dashStep_eq, hf]
    simp only [countKey_append]
    have : countKey [⟨acc.2, uid, ch.id, today,
        hasBox form "prepared_" ch.id, hasBox form "verified_" ch.id,
        hasBox form "completed_" ch.id⟩] u' c' d' = 0 := by
      simp only [countKey, List.filter_cons]
      simp [statusKeyMatch_mk_false _ _ _ _ _ _ _ _ _ _ hne]
    rw [this, Nat.add_zero]
  · rw [dashStep_eq, hf]
    exact countKey_updateFirstStatus _ _ _ _ _ _ _ _ _ _

theorem countKey_dashStep_le {V : Type} (form : Form) (uid today : Nat)
    (acc : List UserChoreStatus × Nat) (ch : Chore V) (u' c' d' : Nat)
    (h : countKey acc.1 u' c' d' ≤ 1) :
    countKey (dashStep form uid today acc ch).1 u' c' d' ≤ 1 := by
  by_cases hk : u' = uid ∧ c' = ch.id ∧ d' = today
  · rcases hk with ⟨rfl, rfl, rfl⟩
    rw [countKey_dashStep_self]
    split
    · exact Nat.le_refl 1
    · exact h
  · rw [countKey_dashStep_of_ne _ _ _ _ _ _ _ _ hk]
    exact h

/-! ### The whole dashboard POST loop -/

theorem findStatus_dashFold_of_ne {V : Type} (form : Form) (uid today : Nat)
    (chores : List (Chore V)) (acc : List UserChoreStatus × Nat)
    (u' c' d' : Nat)
    (h : ∀ ch ∈ chores, ¬(u' = uid ∧ c' = ch.id ∧ d' = today)) :
    findStatus (chores.foldl (dashStep form uid today) acc).1 u' c' d' =
      findStatus acc.1 u' c' d' := by
  induction chores generalizing acc with
  | nil => rfl
  | cons c0 rest ih =>
    rw [List.foldl_cons,
      ih _ (fun ch h' => h ch (List.mem_cons_of_mem _ h'))]
    exact findStatus_dashStep_of_ne _ _ _ _ _ _ _ _
      (h c0 (List.mem_cons_self _ _))

theorem countKey_dashFold_of_ne {V : Type} (form : Form) (uid today : Nat)
    (chores : List (Chore V)) (acc : List UserChoreStatus × Nat)
    (u' c' d' : Nat)
    (h : ∀ ch ∈ chores, ¬(u' = uid ∧ c' = ch.id ∧ d' = today)) :
    countKey (chores.foldl (dashStep form uid today) acc).1 u' c' d' =
      countKey acc.1 u' c' d' := by
  induction chores generalizing acc with
  | nil => rfl
  | cons c0 rest ih =>
    rw [List.foldl_cons,
      ih _ (fun ch h' => h ch (List.mem_cons_of_mem _ h'))]
    exact countKey_dashStep_of_ne _ _ _ _ _ _ _ _
      (h c0 (List.mem_cons_self _ _))

theorem countKey_dashFold_le {V : Type} (form : Form) (uid today : Nat)
    (chores : List (Chore V)) (acc : List UserChoreStatus × Nat)
    (u' c' d' : Nat) (h : countKey acc.1 u' c' d' ≤ 1) :
    countKey (chores.foldl (dashStep form uid today) acc).1 u' c' d' ≤ 1 := by
  induction chores generalizing acc with
  | nil => exact h
  | cons c0 rest ih =>
    rw [List.foldl_cons]
    exact ih _ (countKey_dashStep_le _ _ _ _ _ _ _ _ h)

theorem findStatus_dashFold_self {V : Type} (form : Form) (uid today : Nat)
    {chores : List (Chore V)} (acc : List UserChoreStatus × Nat)
    {ch : Chore V} (hnd : (chores.map Chore.id).Nodup) (hch : ch ∈ chores) :
    ∃ s, findStatus (chores.foldl (dashStep form uid today) acc).1
        uid ch.id today = some s ∧
      s.user_id = uid ∧ s.chore_id = ch.id ∧ s.date = today ∧
      s.prepared = hasBox form "prepared_" ch.id ∧
      s.verified = hasBox form "verified_" ch.id ∧
      s.completed = hasBox form "completed_" ch.id ∧
      ∀ s0, findStatus acc.1 uid ch.id today = some s0 → s.id = s0.id := by
  induction chores generalizing acc with
  | nil => cases hch
  | cons c0 rest ih =>
    rw [List.foldl_cons]
    have hnd' : (rest.map Chore.id).Nodup :=
      (List.nodup_cons.mp (by simpa using hnd)).2
    have hid0 : c0.id ∉ rest.map Chore.id :=
      (List.nodup_cons.mp (by simpa using hnd)).1
    rcases List.mem_cons.mp hch with rfl | hm
    · obtain ⟨s, hs, h1, h2, h3, h4, h5, h6, hid⟩ :=
        findStatus_dashStep_self form uid today acc ch
      refine ⟨s, ?_, h1, h2, h3, h4, h5, h6, hid⟩
      rw [findStatus_dashFold_of_ne]
      · exact hs
      · rintro c' hc' ⟨-, hcc, -⟩
        exact hid0 (hcc ▸ List.mem_map_of_mem _ hc')
    · obtain ⟨s, hs, h1, h2, h3, h4, h5, h6, hid⟩ :=
        ih (dashStep form uid today acc c0) hnd' hm
      refine ⟨s, hs, h1, h2, h3, h4, h5, h6, ?_⟩
      intro s0 h0
      apply hid
      rw [findStatus_dashStep_of_ne]
      · exact h0
      · rintro ⟨-, hcc, -⟩
        exact hid0 (hcc ▸ List.mem_map_of_mem _ hm)

theorem countKey_dashFold_self {V : Type} (form : Form) (uid today : Nat)
    {chores : List (Chore V)} (acc : List UserChoreStatus × Nat)
    {ch : Chore V} (hnd : (chores.map Chore.id).Nodup) (hch : ch ∈ chores) :
    countKey (chores.foldl (dashStep form uid today) acc).1 uid ch.id today =
      if countKey acc.1 uid ch.id today = 0 then 1
      else countKey acc.1 uid ch.id today := by
  induction chores generalizing acc with
  | nil => cases hch
  | cons c0 rest ih =>
    rw [List.foldl_cons]
    have hnd' : (rest.map Chore.id).Nodup :=
      (List.nodup_cons.mp (by simpa using hnd)).2
    have hid0 : c0.id ∉ rest.map Chore.id :=
      (List.nodup_cons.mp (by simpa using hnd)).1
    rcases List.mem_cons.mp hch with rfl | hm
    · rw [countKey_dashFold_of_ne, countKey_dashStep_self]
      rintro c' hc' ⟨-, hcc, -⟩
      exact hid0 (hcc ▸ List.mem_map_of_mem _ hc')
    · rw [ih (dashStep form uid today acc c0) hnd' hm,
        countKey_dashStep_of_ne]
      rintro ⟨-, hcc, -⟩
      exact hid0 (hcc ▸ List.mem_map_of_mem _ hm)

/-! ### Which operations touch the statuses table -/

theorem register_statuses {V : Type} (hash : String → String) (db : DB V)
    (sess : Option Nat) (mth : Method) (form : Form) :
    (register hash db sess mth form).1.statuses = db.statuses := by
  cases mth with
  | get => rfl
  | post =>
    simp only [register]
    split
    · rfl
    · split <;> rfl

theorem login_statuses {V : Type} (check : String → String → Bool) (db : DB V)
    (sess : Option Nat) (mth : Method) (form : Form) :
    (login check db sess mth form).1.statuses = db.statuses := by
  cases mth with
  | get => rfl
  | post =>
    simp only [login]
    split
    · split <;> rfl
    · rfl

theorem logout_statuses {V : Type} (db : DB V) (sess : Option Nat) :
    (logout db sess).1.statuses = db.statuses :=
  rfl

theorem add_chore_statuses {V : Type} (parse : String → Option V) (db : DB V)
    (sess : Option Nat) (mth : Method) (form : Form) :
    (add_chore parse db sess mth form).1.statuses = db.statuses := by
  rcases sess with _ | uid
  · rfl
  · cases mth with
    | get => rfl
    | post =>
      simp only [add_chore]
      split
      · rfl
      · split <;> rfl

theorem dashboard_statuses_cases {V : Type} (db : DB V) (sess : Option Nat)
    (mth : Method) (form : Form) (today : Nat) :
    (dashboard db sess mth form today).1.statuses = db.statuses ∨
      ∃ uid, (dashboard db sess mth form today).1.statuses =
        (db.chores.foldl (dashStep form uid today)
          (db.statuses, db.nextStatusId)).1 := by
  rcases sess with _ | uid
  · left
    rfl
  · rcases hu : List.find? (fun u => u.id == uid) db.users with _ | user
    · left
      simp [dashboard, hu]
    · cases mth with
      | get =>
        left
        simp [dashboard, hu]
      | post =>
        right
        exact ⟨user.id, by simp [dashboard, hu]⟩

theorem delete_chore_statuses {V : Type} (db : DB V) (sess : Option Nat)
    (cid : Nat) :
    (delete_chore db sess cid).1.statuses = db.statuses ∨
      (delete_chore db sess cid).1.statuses =
        db.statuses.filter (fun s => s.chore_id != cid) := by
  rcases sess with _ | uid
  · left
    rfl
  · rcases hc : List.find? (fun c => c.id == cid) db.chores with _ | ch
    · left
      simp [delete_chore, hc]
    · right
      simp [delete_chore, hc]

/-- The key invariant behind the upsert logic: every reachable database has
at most one status row per (user, chore, date). -/
theorem reachable_statusKeyUnique {V : Type} {db : DB V}
    (h : Reachable db) : StatusKeyUnique db.statuses := by
  induction h with
  | init =>
    intro uid cid d
    simp [emptyDB, countKey]
  | register hash sess mth form _ ih =>
    unfold StatusKeyUnique
    rw [register_statuses]
    exact ih
  | login check sess mth form _ ih =>
    unfold StatusKeyUnique
    rw [login_statuses]
    exact ih
  | logout sess _ ih =>
    unfold StatusKeyUnique
    rw [logout_statuses]
    exact ih
  | dashboard sess mth form today _ ih =>
    rcases dashboard_statuses_cases _ sess mth form today with h | ⟨uid, h⟩
    · unfold StatusKeyUnique
      rw [h]
      exact ih
    · intro u' c' d'
      rw [h]
      exact countKey_dashFold_le _ _ _ _ _ _ _ _ (ih u' c' d')
  | add_chore parse sess mth form _ ih =>
    unfold StatusKeyUnique
    rw [add_chore_statuses]
    exact ih
  | delete_chore sess cid _ ih =>
    rcases delete_chore_statuses _ sess cid with h | h
    · unfold StatusKeyUnique
      rw [h]
      exact ih
    · intro u' c' d'
      rw [h]
      exact Nat.le_trans (countKey_filter_le _ _ _ _ _) (ih u' c' d')

/-! ### Remaining helper lemmas -/

theorem find?_user_id {l : List User} {u : User} (hu : u ∈ l) :
    ∃ u', List.find? (fun x => x.id == u.id) l = some u' ∧ u'.id = u.id := by
  have hs : (List.find? (fun x => x.id == u.id) l).isSome := by
    rw [List.find?_isSome]
    exact ⟨u, hu, by simp⟩
  rcases ho : List.find? (fun x => x.id == u.id) l with _ | u'
  · rw [ho] at hs
    simp at hs
  · have := List.find?_some ho
    exact ⟨u', ho, by simpa using this⟩

theorem hasBox_eq_false_of_absent {form : Form} {pre : String} {cid : Nat}
    (h : ∀ kv ∈ form, kv.1 ≠ pre ++ toString cid) :
    hasBox form pre cid = false := by
  rcases hfind : List.find? (fun kv => kv.1 == pre ++ toString cid) form
    with _ | kv
  · simp [hasBox, hfind]
  · have h1 := List.find?_some hfind
    have h2 := List.mem_of_find?_eq_some hfind
    exact absurd (by simpa using h1) (h kv h2)

theorem hasBox_eq_keyPresent {form : Form} (pre : String) (cid : Nat)
    (hform : ∀ kv ∈ form, kv.2 ≠ "") :
    hasBox form pre cid = keyPresent form (pre ++ toString cid) := by
  rcases hfind : List.find? (fun kv => kv.1 == pre ++ toString cid) form
    with _ | kv
  · simp [hasBox, keyPresent, hfind]
  · have hne := hform kv (List.mem_of_find?_eq_some hfind)
    simp [hasBox, keyPresent, hfind, hne]

theorem removeFirstChore_eq_filter {V : Type} (l : List (Chore V)) (cid : Nat)
    (hnd : (l.map Chore.id).Nodup) :
    removeFirstChore l cid = l.filter (fun c => c.id != cid) := by
  induction l with
  | nil => rfl
  | cons c rest ih =>
    have hnd' : (rest.map Chore.id).Nodup :=
      (List.nodup_cons.mp (by simpa using hnd)).2
    have hnotin : c.id ∉ rest.map Chore.id :=
      (List.nodup_cons.mp (by simpa using hnd)).1
    by_cases h : c.id = cid
    · have hb : (c.id == cid) = true := by simpa using h
      have hc : (c.id != cid) = false := by simpa using h
      have hrest : List.filter (fun c => c.id != cid) rest = rest := by
        rw [List.filter_eq_self]
        intro c' hc'
        have hne : c'.id ≠ cid := by
          intro he
          apply hnotin
          have hcc : c.id = c'.id := h.trans he.symm
          rw [hcc]
          exact List.mem_map_of_mem _ hc'
        simpa using hne
      simp [removeFirstChore, hb, List.filter_cons, hc, hrest]
    · have hb : (c.id == cid) = false := by simpa using h
      have hc : (c.id != cid) = true := by simpa using h
      simp [removeFirstChore, hb, List.filter_cons, hc, ih hnd']

/-! ### The claims -/

/-- **C2**: in every database state reachable from the empty database by
the application operations, there is at most one `UserChoreStatus` row per
(user_id, chore_id, date) triple. -/
theorem at_most_one_status_row_per_key {V : Type} (db : DB V)
    (h : Reachable db) (uid cid d : Nat) :
    countKey db.statuses uid cid d ≤ 1 :=
  reachable_statusKeyUnique h uid cid d

/-- Witness for C2 at a concrete reachable state: empty database, then a
registration, a login and a dashboard POST. -/
theorem at_most_one_status_row_per_key_witness :
    countKey ((ChoreApp.dashboard
      ((ChoreApp.register (fun p => "h" ++ p) (emptyDB Int) none .post
        [("username", "ann"), ("password", "pw")]).1)
      (some 1) .post [("prepared_1", "on")] 7).1).statuses 1 1 7 ≤ 1 :=
  at_most_one_status_row_per_key _
    (Reachable.dashboard _ _ _ _ (Reachable.register _ _ _ _ Reachable.init))
    1 1 7

/-- **C7**: any request to the dashboard with no `user_id` in the session
is answered by a redirect to the login page with the database untouched
(the handler body, and with it every database access, is never entered). -/
theorem dashboard_without_login_redirects {V : Type} (db : DB V)
    (mth : Method) (form : Form) (today : Nat) :
    dashboard db none mth form today = (db, none, .redirect .login none) :=
  rfl

/-- **C1**: after a POST to the dashboard by a logged-in user `u`, every
chore `c` has a status row for `(u, c, today)` whose three flags equal
exactly the presence of the corresponding checkbox fields of `c` in the
form data; the row is unique for its key, and an already existing row is
overwritten in place (same row id) rather than a second row created.
Presence is stated for form data whose field values are nonempty, as a
browser submits them (a checked checkbox arrives as `name=on`); the
source reads the flags with `bool(request.form.get(...))`, which treats
a field with an empty value like an absent one. -/
theorem dashboard_post_upserts_exact_flags {V : Type} (db : DB V)
    (form : Form) (today : Nat) (u : User) (c : Chore V)
    (hu : u ∈ db.users) (hc : c ∈ db.chores)
    (hnd : (db.chores.map Chore.id).Nodup)
    (huniq : StatusKeyUnique db.statuses)
    (hform : ∀ kv ∈ form, kv.2 ≠ "") :
    ∃ s, findStatus (dashboard db (some u.id) .post form today).1.statuses
        u.id c.id today = some s ∧
      s.prepared = keyPresent form ("prepared_" ++ toString c.id) ∧
      s.verified = keyPresent form ("verified_" ++ toString c.id) ∧
      s.completed = keyPresent form ("completed_" ++ toString c.id) ∧
      countKey (dashboard db (some u.id) .post form today).1.statuses
        u.id c.id today = 1 ∧
      ∀ s0, findStatus db.statuses u.id c.id today = some s0 →
        s.id = s0.id := by
  obtain ⟨u', hu', hid⟩ := find?_user_id hu
  have hdb : (dashboard db (some u.id) .post form today).1.statuses =
      (db.chores.foldl (dashStep form u.id today)
        (db.statuses, db.nextStatusId)).1 := by
    simp [dashboard, hu', hid]
  rw [hdb]
  obtain ⟨s, hs, h1, h2, h3, h4, h5, h6, hidp⟩ :=
    findStatus_dashFold_self form u.id today (db.statuses, db.nextStatusId)
      hnd hc
  refine ⟨s, hs, ?_, ?_, ?_, ?_, hidp⟩
  · rw [h4, hasBox_eq_keyPresent _ _ hform]
  · rw [h5, hasBox_eq_keyPresent _ _ hform]
  · rw [h6, hasBox_eq_keyPresent _ _ hform]
  rw [countKey_dashFold_self form u.id today (db.statuses, db.nextStatusId)
    hnd hc]
  have hle : countKey (db.statuses, db.nextStatusId).1 u.id c.id today ≤ 1 :=
    huniq u.id c.id today
  split
  · rfl
  · omega

/-- **C9**: a dashboard POST writes a status row for every chore, not
only those mentioned in the form: a chore whose three checkbox fields
are absent from the form data gets all three flags set to `false` in its
(user, today) status row, whatever was stored before. -/
theorem dashboard_post_clears_unchecked_chores {V : Type} (db : DB V)
    (form : Form) (today : Nat) (u : User) (c : Chore V)
    (hu : u ∈ db.users) (hc : c ∈ db.chores)
    (hnd : (db.chores.map Chore.id).Nodup)
    (habs : ∀ kv ∈ form, kv.1 ≠ "prepared_" ++ toString c.id ∧
      kv.1 ≠ "verified_" ++ toString c.id ∧
      kv.1 ≠ "completed_" ++ toString c.id) :
    ∃ s, findStatus (dashboard db (some u.id) .post form today).1.statuses
        u.id c.id today = some s ∧
      s.prepared = false ∧ s.verified = false ∧ s.completed = false := by
  obtain ⟨u', hu', hid⟩ := find?_user_id hu
  have hdb : (dashboard db (some u.id) .post form today).1.statuses =
      (db.chores.foldl (dashStep form u.id today)
        (db.statuses, db.nextStatusId)).1 := by
    simp [dashboard, hu', hid]
  rw [hdb]
  obtain ⟨s, hs, h1, h2, h3, h4, h5, h6, hidp⟩ :=
    findStatus_dashFold_self form u.id today (db.statuses, db.nextStatusId)
      hnd hc
  refine ⟨s, hs, ?_, ?_, ?_⟩
  · rw [h4]
    exact hasBox_eq_false_of_absent (fun kv hkv => (habs kv hkv).1)
  · rw [h5]
    exact hasBox_eq_false_of_absent (fun kv hkv => (habs kv hkv).2.1)
  · rw [h6]
    exact hasBox_eq_false_of_absent (fun kv hkv => (habs kv hkv).2.2)

/-- **C3**: when a chore with the given id exists, `delete_chore` removes
it together with every status row referencing it and leaves the other
chores, the users and the other status rows unchanged, answering a
redirect; when no chore has the id, it answers 404 and the database is
unchanged. -/
theorem delete_chore_spec {V : Type} (db : DB V) (uid cid : Nat)
    (hnd : (db.chores.map Chore.id).Nodup) :
    ((∃ c ∈ db.chores, c.id = cid) →
      (delete_chore db (some uid) cid).1.chores =
          db.chores.filter (fun c => c.id != cid) ∧
      (delete_chore db (some uid) cid).1.statuses =
          db.statuses.filter (fun s => s.chore_id != cid) ∧
      (delete_chore db (some uid) cid).1.users = db.users ∧
      ∃ nm, (delete_chore db (some uid) cid).2.2 =
        Response.redirect .addChore (some ("Deleted chore " ++ nm ++ "."))) ∧
    ((∀ c ∈ db.chores, c.id ≠ cid) →
      delete_chore db (some uid) cid = (db, some uid, Response.notFound)) := by
  constructor
  · rintro ⟨c0, hc0, hcid⟩
    have hs : (List.find? (fun c => c.id == cid) db.chores).isSome := by
      rw [List.find?_isSome]
      exact ⟨c0, hc0, by simp [hcid]⟩
    rcases ho : List.find? (fun c => c.id == cid) db.chores with _ | ch
    · rw [ho] at hs
      simp at hs
    · refine ⟨?_, ?_, ?_, ch.name, ?_⟩ <;>
        simp [delete_chore, ho, removeFirstChore_eq_filter _ _ hnd]
  · intro hnone
    have ho : List.find? (fun c => c.id == cid) db.chores = none := by
      rw [List.find?_eq_none]
      intro c hcmem
      simpa using hnone c hcmem
    simp [delete_chore, ho]

/-- **C4**: a POST to `/register` with a username (after stripping) that
some existing user already has redirects back to the registration form
with a flash message and changes nothing: the whole database, the user
table included, is returned as it was. -/
theorem register_duplicate_username_rejected {V : Type}
    (hash : String → String) (db : DB V) (sess : Option Nat) (form : Form)
    (hdup : ∃ u ∈ db.users,
      u.username = strip (formGet form "username" "")) :
    ∃ msg, register hash db sess .post form =
      (db, sess, Response.redirect .register (some msg)) := by
  obtain ⟨u0, hu0, hname⟩ := hdup
  by_cases h : strip (formGet form "username" "") = "" ∨
      formGet form "password" "" = ""
  · exact ⟨"Both username and password are required.",
      by simp [register, h]⟩
  · have hs : (List.find?
        (fun u => u.username == strip (formGet form "username" ""))
        db.users).isSome := by
      rw [List.find?_isSome]
      exact ⟨u0, hu0, by simp [hname]⟩
    rcases ho : List.find?
        (fun u => u.username == strip (formGet form "username" ""))
        db.users with _ | u1
    · rw [ho] at hs
      simp at hs
    · exact ⟨"Username is already taken.", by simp [register, h, ho]⟩

/-- **C5**: a POST to `/login` sets `session["user_id"]` to the matching
user and redirects to the dashboard exactly when a user with the
whitespace-stripped submitted username exists and the submitted password
verifies against that stored hash; otherwise it redirects back to the
login form with the session unchanged. -/
theorem login_spec {V : Type} (check : String → String → Bool) (db : DB V)
    (sess : Option Nat) (form : Form)
    (hnd : (db.users.map User.username).Nodup) :
    (∀ u ∈ db.users, u.username = strip (formGet form "username" "") →
      check u.password_hash (formGet form "password" "") = true →
      login check db sess .post form =
        (db, some u.id,
         Response.redirect .dashboard (some "Logged in successfully."))) ∧
    ((¬∃ u ∈ db.users, u.username = strip (formGet form "username" "") ∧
        check u.password_hash (formGet form "password" "") = true) →
      login check db sess .post form =
        (db, sess,
         Response.redirect .login
           (some "Invalid username or password."))) := by
  constructor
  · intro u hu hname hcheck
    have hs : (List.find?
        (fun x => x.username == strip (formGet form "username" ""))
        db.users).isSome := by
      rw [List.find?_isSome]
      exact ⟨u, hu, by simp [hname]⟩
    rcases ho : List.find?
        (fun x => x.username == strip (formGet form "username" ""))
        db.users with _ | u1
    · rw [ho] at hs
      simp at hs
    · have hmem := List.mem_of_find?_eq_some ho
      have hun : u1.username = strip (formGet form "username" "") := by
        simpa using List.find?_some ho
      have heq : u1 = u :=
        List.inj_on_of_nodup_map hnd hmem hu (hun.trans hname.symm)
      subst heq
      simp [login, ho, hcheck]
  · intro hnot
    rcases ho : List.find?
        (fun x => x.username == strip (formGet form "username" ""))
        db.users with _ | u1
    · simp [login, ho]
    · have hmem := List.mem_of_find?_eq_some ho
      have hun : u1.username = strip (formGet form "username" "") := by
        simpa using List.find?_some ho
      cases hch : check u1.password_hash (formGet form "password" "") with
      | true => exact absurd ⟨u1, hmem, hun, hch⟩ hnot
      | false => simp [login, ho, hch]

/-- **C6**: a POST to `/add_chore` whose (stripped) value field does not
parse as a number redirects back to the add-chore form with a flash
message, and the database, the chore table included, is unchanged. -/
theorem add_chore_invalid_value_rejected {V : Type}
    (parse : String → Option V) (db : DB V) (uid : Nat) (form : Form)
    (hparse : parse (strip (formGet form "value" "")) = none) :
    add_chore parse db (some uid) .post form =
      (db, some uid,
       Response.redirect .addChore
         (some "Please enter a valid value for the chore.")) := by
  simp [add_chore, hparse]

/-- **C8**: a GET of the dashboard never modifies the database: the whole
database is returned unchanged, and for every chore with no status row
for (current user, today) a status object with default flags is
synthesized for rendering without being persisted. -/
theorem dashboard_get_pure {V : Type} (db : DB V) (form : Form)
    (today : Nat) (u : User) (hu : u ∈ db.users) :
    (dashboard db (some u.id) .get form today).1 = db ∧
    (dashboard db (some u.id) .get form today).2.1 = some u.id ∧
    ∃ user chores sts t,
      (dashboard db (some u.id) .get form today).2.2 =
        Response.renderDashboard user chores sts t ∧
      ∀ c ∈ db.chores, findStatus db.statuses u.id c.id today = none →
        ∃ s, (c.id, s) ∈ sts ∧ s.user_id = u.id ∧ s.chore_id = c.id ∧
          s.date = today ∧ s.prepared = false ∧ s.verified = false ∧
          s.completed = false ∧ s ∉ db.statuses := by
  obtain ⟨u', hu', hid⟩ := find?_user_id hu
  refine ⟨by simp [dashboard, hu'], by simp [dashboard, hu'], u',
    db.chores,
    db.chores.map (fun c =>
      (c.id, (findStatus db.statuses u.id c.id today).getD
        (synthStatus u.id c.id today))),
    today, by simp [dashboard, hu', hid], ?_⟩
  intro c hc hnone
  refine ⟨synthStatus u.id c.id today, ?_, rfl, rfl, rfl, rfl, rfl, rfl, ?_⟩
  · have hm := List.mem_map_of_mem (fun c : Chore V =>
      (c.id, (findStatus db.statuses u.id c.id today).getD
        (synthStatus u.id c.id today))) hc
    simpa [hnone] using hm
  · intro hmem
    have hsome : (List.find?
        (fun s => statusKeyMatch s u.id c.id today) db.statuses).isSome := by
      rw [List.find?_isSome]
      exact ⟨_, hmem, by simp [statusKeyMatch, synthStatus]⟩
    have hfs : List.find? (fun s => statusKeyMatch s u.id c.id today)
        db.statuses = findStatus db.statuses u.id c.id today := rfl
    rw [hfs, hnone] at hsome
    simp at hsome

/-- **C10**: a successful POST to `/register` leaves the session
unchanged and redirects to the login page, and its only database change
is the insertion of the single new user row (chores, statuses and the
other counters are untouched). -/
theorem register_success_effects {V : Type} (hash : String → String)
    (db : DB V) (sess : Option Nat) (form : Form)
    (hname : strip (formGet form "username" "") ≠ "")
    (hpwd : formGet form "password" "" ≠ "")
    (hfresh : ∀ u ∈ db.users,
      u.username ≠ strip (formGet form "username" "")) :
    register hash db sess .post form =
      ({ db with
          users := db.users ++ [⟨db.nextUserId,
            strip (formGet form "username" ""),
            hash (formGet form "password" "")⟩]
          nextUserId := db.nextUserId + 1 },
       sess,
       Response.redirect .login
         (some "Registration successful. Please log in.")) := by
  have ho : List.find?
      (fun u => u.username == strip (formGet form "username" ""))
      db.users = none := by
    rw [List.find?_eq_none]
    intro u hu
    simpa using hfresh u hu
  have hcond : ¬(strip (formGet form "username" "") = "" ∨
      formGet form "password" "" = "") := by
    rintro (h | h)
    exacts [hname h, hpwd h]
  simp [register, hcond, ho]

/-! ### Concrete fixtures and witnesses -/

/-- A small concrete database: one user, two chores, one status row for
(user 1, chore 1) on day 7. Chore values are instantiated at `Int`. -/
def dbW : DB Int :=
  { users := [⟨1, "ann", "Hpw"⟩]
    chores := [⟨1, "dishes", 5⟩, ⟨2, "laundry", 3⟩]
    statuses := [⟨1, 1, 1, 7, false, false, true⟩]
    nextUserId := 2, nextChoreId := 3, nextStatusId := 2 }

/-- Concrete stand-in for `generate_password_hash`. -/
def hashW (p : String) : String := "H" ++ p

/-- Concrete stand-in for `check_password_hash`, matching `hashW`. -/
def checkW (h p : String) : Bool := h == "H" ++ p

/-- Concrete stand-in for `float`: parse a nonempty digit string. -/
def parseW (s : String) : Option Int :=
  if s.data ≠ [] ∧ s.data.all Char.isDigit then
    some (s.data.foldl (fun n c => 10 * n + ((c.toNat : Int) - 48)) 0)
  else none

theorem statusKeyUnique_dbW : StatusKeyUnique dbW.statuses := by
  intro uid cid d
  simp only [dbW, countKey, List.filter_cons, List.filter_nil]
  split <;> simp

theorem dashboard_post_upserts_exact_flags_witness :
    ∃ s, findStatus
        (dashboard dbW (some 1) .post [("prepared_1", "on")] 7).1.statuses
        1 1 7 = some s ∧
      s.prepared = keyPresent [("prepared_1", "on")] ("prepared_" ++ toString 1) ∧
      s.verified = keyPresent [("prepared_1", "on")] ("verified_" ++ toString 1) ∧
      s.completed = keyPresent [("prepared_1", "on")] ("completed_" ++ toString 1) ∧
      countKey
        (dashboard dbW (some 1) .post [("prepared_1", "on")] 7).1.statuses
        1 1 7 = 1 ∧
      ∀ s0, findStatus dbW.statuses 1 1 7 = some s0 → s.id = s0.id :=
  dashboard_post_upserts_exact_flags dbW [("prepared_1", "on")] 7
    ⟨1, "ann", "Hpw"⟩ ⟨1, "dishes", 5⟩ (by decide) (by decide) (by decide)
    statusKeyUnique_dbW (by decide)

theorem dashboard_post_clears_unchecked_chores_witness :
    ∃ s, findStatus
        (dashboard dbW (some 1) .post [("prepared_1", "on")] 7).1.statuses
        1 2 7 = some s ∧
      s.prepared = false ∧ s.verified = false ∧ s.completed = false :=
  dashboard_post_clears_unchecked_chores dbW [("prepared_1", "on")] 7
    ⟨1, "ann", "Hpw"⟩ ⟨2, "laundry", 3⟩ (by decide) (by decide) (by decide)
    (by decide)

theorem delete_chore_spec_witness :
    (delete_chore dbW (some 1) 1).1.chores = [⟨2, "laundry", 3⟩] ∧
    (delete_chore dbW (some 1) 1).1.statuses = [] ∧
    (delete_chore dbW (some 1) 1).1.users = dbW.users ∧
    delete_chore dbW (some 1) 5 = (dbW, some 1, Response.notFound) := by
  obtain ⟨h1, h2, h3, -⟩ := (delete_chore_spec dbW 1 1 (by decide)).1
    ⟨⟨1, "dishes", 5⟩, by decide, rfl⟩
  exact ⟨by rw [h1]; rfl, by rw [h2]; rfl, h3,
    (delete_chore_spec dbW 1 5 (by decide)).2 (by decide)⟩

theorem register_duplicate_username_rejected_witness :
    ∃ msg, register hashW dbW none .post
        [("username", " ann "), ("password", "x")] =
      (dbW, none, Response.redirect .register (some msg)) :=
  register_duplicate_username_rejected hashW dbW none
    [("username", " ann "), ("password", "x")]
    ⟨⟨1, "ann", "Hpw"⟩, by decide, by decide⟩

theorem login_spec_witness :
    login checkW dbW none .post [("username", " ann "), ("password", "pw")] =
      (dbW, some 1,
       Response.redirect .dashboard (some "Logged in successfully.")) :=
  (login_spec checkW dbW none
    [("username", " ann "), ("password", "pw")] (by decide)).1
    ⟨1, "ann", "Hpw"⟩ (by decide) (by decide) (by decide)

theorem add_chore_invalid_value_rejected_witness :
    add_chore parseW dbW (some 1) .post
        [("name", "mop"), ("value", "abc")] =
      (dbW, some 1,
       Response.redirect .addChore
         (some "Please enter a valid value for the chore.")) :=
  add_chore_invalid_value_rejected parseW dbW 1
    [("name", "mop"), ("value", "abc")] (by decide)

theorem dashboard_get_pure_witness :
    (dashboard dbW (some 1) .get [] 7).1 = dbW ∧
    (dashboard dbW (some 1) .get [] 7).2.1 = some 1 ∧
    ∃ user chores sts t,
      (dashboard dbW (some 1) .get [] 7).2.2 =
        Response.renderDashboard user chores sts t ∧
      ∀ c ∈ dbW.chores, findStatus dbW.statuses 1 c.id 7 = none →
        ∃ s, (c.id, s) ∈ sts ∧ s.user_id = 1 ∧ s.chore_id = c.id ∧
          s.date = 7 ∧ s.prepared = false ∧ s.verified = false ∧
          s.completed = false ∧ s ∉ dbW.statuses :=
  dashboard_get_pure dbW [] 7 ⟨1, "ann", "Hpw"⟩ (by decide)

theorem register_success_effects_witness :
    register hashW dbW none .post
        [("username", " bob "), ("password", "pw")] =
      ({ dbW with
          users := dbW.users ++ [⟨2, "bob", "Hpw"⟩]
          nextUserId := 3 },
       none,
       Response.redirect .login
         (some "Registration successful. Please log in.")) :=
  (register_success_effects hashW dbW none
    [("username", " bob "), ("password", "pw")]
    (by decide) (by decide) (by decide)).trans (by decide)

end ChoreApp
